import Mathlib

/-!
Shallow embedding of `pkg/scheduler/nodeinfo/snapshot/snapshot.go`
(package `nodeinfo`): the scheduler's point-in-time snapshot of cluster
state, its construction, and its pod/node query facades.

Go maps are embedded as association lists (`List (String × NodeInfo)`);
iterating a map is iterating the entry list.  The `error` return channel
of the Go listers is embedded as `Option SchedErr` (`none` = nil error),
and `Get`'s fallible result as `Except SchedErr NodeInfo`.
-/

namespace SchedSnapshot

/-- A node record, as consumed by snapshot construction.  Only the name is
relevant to this package. -/
structure Node where
  name : String
deriving DecidableEq, Repr

/-- A pod record: its identity, the node it is assigned to, its label set,
and the derived flag for whether it declares inter-pod affinity terms. -/
structure Pod where
  podName : String
  nodeName : String
  labels : List (String × String)
  hasAffinityTerms : Bool
deriving DecidableEq, Repr

/-- Modelled from the spec: the node aggregate (`schedulernodeinfo.NodeInfo`,
defined outside this file's source): a node identity, an optional underlying
node descriptor (absent for stale bookkeeping entries), the ordered pods
assigned to the node, and the sub-collection of pods carrying affinity
terms. -/
structure NodeInfo where
  name : String
  node : Option Node
  pods : List Pod
  podsWithAffinity : List Pod
deriving DecidableEq, Repr

/-- The label selector abstraction (`labels.Selector`): a boolean test on a
pod's label set. -/
def Selector : Type := List (String × String) → Bool

/-- The pod predicate abstraction (`schedulerlisters.PodFilter`). -/
def PodFilter : Type := Pod → Bool

/-- The single error kind of this core: NotFound, carrying the requested
node name (`fmt.Errorf("nodeinfo not found for node name %q", nodeName)`). -/
inductive SchedErr where
  | notFound (name : String)
deriving DecidableEq, Repr

/-- The Snapshot struct: `NodeInfoMap`, `NodeInfoList`,
`HavePodsWithAffinityNodeInfoList`, `Generation`. -/
structure Snapshot where
  nodeInfoMap : List (String × NodeInfo)
  nodeInfoList : List NodeInfo
  havePodsWithAffinityNodeInfoList : List NodeInfo
  generation : Int
deriving DecidableEq, Repr

/-- Embeds `NewEmptySnapshot`: an initialized Snapshot with an empty map; the other
fields take their zero values. -/
def NewEmptySnapshot : Snapshot :=
  { nodeInfoMap := []
    nodeInfoList := []
    havePodsWithAffinityNodeInfoList := []
    generation := 0 }

/-- Modelled from the spec: the distinct node names referenced by the input
(every assigned-pod node name and every node in the nodes collection);
`schedulernodeinfo.CreateNodeNameToInfoMap` lives outside this file's
source. -/
def referencedNames (pods : List Pod) (nodes : List Node) : List String :=
  (pods.map Pod.nodeName ++ nodes.map Node.name).dedup

/-- Modelled from the spec: the node aggregate built for one node name —
the optional node descriptor (absent for an orphaned assignment), all pods
whose assignment matches the name, and among them those carrying affinity
terms. -/
def aggregateFor (pods : List Pod) (nodes : List Node) (nm : String) : NodeInfo :=
  { name := nm
    node := nodes.find? (fun nd => nd.name == nm)
    pods := pods.filter (fun p => p.nodeName == nm)
    podsWithAffinity := pods.filter (fun p => p.nodeName == nm && p.hasAffinityTerms) }

/-- Modelled from the spec: `schedulernodeinfo.CreateNodeNameToInfoMap`
(outside this file's source) — one map entry per distinct node name
referenced by the input, each aggregating the pods assigned to it. -/
def CreateNodeNameToInfoMap (pods : List Pod) (nodes : List Node) :
    List (String × NodeInfo) :=
  (referencedNames pods nodes).map (fun nm => (nm, aggregateFor pods nodes nm))

/-- Embeds the `for _, v := range nodeInfoMap` loop of `NewSnapshot`: append every
aggregate to `nodeInfoList` and, when it has a pod with affinity terms, to
`havePodsWithAffinityNodeInfoList`. -/
def buildLists (entries : List (String × NodeInfo)) :
    List NodeInfo × List NodeInfo :=
  entries.foldl
    (fun acc kv =>
      let v := kv.2
      (acc.1 ++ [v],
       if 0 < v.podsWithAffinity.length then acc.2 ++ [v] else acc.2))
    ([], [])

/-- Embeds `NewSnapshot`: build the name-to-info map, derive the two lists in one
pass over it, and install all three into a fresh empty snapshot. -/
def NewSnapshot (pods : List Pod) (nodes : List Node) : Snapshot :=
  let nodeInfoMap := CreateNodeNameToInfoMap pods nodes
  let lists := buildLists nodeInfoMap
  { NewEmptySnapshot with
    nodeInfoMap := nodeInfoMap
    nodeInfoList := lists.1
    havePodsWithAffinityNodeInfoList := lists.2 }

/-- Loop body of `Snapshot.ListNodes`: `if n.Node() != nil` append the
descriptor, else keep the accumulator. -/
def listNodesStep (nodes : List Node) (n : NodeInfo) : List Node :=
  match n.node with
  | some nd => nodes ++ [nd]
  | none => nodes

/-- Embeds `Snapshot.ListNodes`: walk `NodeInfoList` and collect the underlying
node descriptor of every aggregate whose descriptor is non-nil. -/
def Snapshot.ListNodes (s : Snapshot) : List Node :=
  s.nodeInfoList.foldl listNodesStep []

/-- Embeds `podLister.FilteredList`: for each aggregate in the map, append each of
its pods that passes both the pod filter and the label selector; the error
channel is always nil. -/
def podLister.FilteredList (s : Snapshot) (podFilter : Pod → Bool)
    (selector : List (String × String) → Bool) :
    List Pod × Option SchedErr :=
  let pods := s.nodeInfoMap.foldl
    (fun acc kv =>
      kv.2.pods.foldl
        (fun acc2 pod =>
          if podFilter pod && selector pod.labels then acc2 ++ [pod] else acc2)
        acc)
    []
  (pods, none)

/-- Embeds `podLister.List`: `FilteredList` with an always-true pod filter. -/
def podLister.List (s : Snapshot)
    (selector : List (String × String) → Bool) :
    List Pod × Option SchedErr :=
  let alwaysTrue := fun (_ : Pod) => true
  podLister.FilteredList s alwaysTrue selector

/-- Embeds `nodeInfoLister.HavePodsWithAffinityList`: return the stored affinity
sub-list with a nil error. -/
def nodeInfoLister.HavePodsWithAffinityList (s : Snapshot) :
    List NodeInfo × Option SchedErr :=
  (s.havePodsWithAffinityNodeInfoList, none)

/-- Embeds `nodeInfoLister.List`: return the stored ordered list with a nil
error. -/
def nodeInfoLister.List (s : Snapshot) : List NodeInfo × Option SchedErr :=
  (s.nodeInfoList, none)

/-- Embeds `nodeInfoLister.Get`: map lookup; a hit returns the stored aggregate
with a nil error, a miss returns the NotFound error carrying the name. -/
def nodeInfoLister.Get (s : Snapshot) (nodeName : String) :
    Except SchedErr NodeInfo :=
  match s.nodeInfoMap.lookup nodeName with
  | some v => Except.ok v
  | none => Except.error (SchedErr.notFound nodeName)

/-- The sum of pod counts across all node aggregates: the `maxSize`
capacity computed by `FilteredList` before filtering. -/
def filteredListMaxSize (s : Snapshot) : Nat :=
  s.nodeInfoMap.foldl (fun maxSize n => maxSize + n.2.pods.length) 0

/-- All pods gathered across all node aggregates of the snapshot, in map
enumeration order. -/
def allSnapshotPods (s : Snapshot) : List Pod :=
  (s.nodeInfoMap.map (fun kv => kv.2.pods)).flatten

/-- Modelled from the spec: the cache that produces successive snapshots
stamps each new capture with a strictly greater generation than the one it
replaces; the stamping code (the scheduler cache) is outside this file's
source, which only declares the `Generation` field. -/
def nextSnapshot (prev : Snapshot) (pods : List Pod) (nodes : List Node) :
    Snapshot :=
  { NewSnapshot pods nodes with generation := prev.generation + 1 }

/-- Modelled from the spec: the sequence of snapshots produced by
successive captures, each one built by `NewSnapshot` and stamped relative
to its predecessor. -/
def snapshotChain (s0 : Snapshot) :
    List (List Pod × List Node) → List Snapshot
  | [] => []
  | c :: cs => nextSnapshot s0 c.1 c.2 :: snapshotChain (nextSnapshot s0 c.1 c.2) cs

/-- Concrete sample capture (two nodes, three pods, one pod with affinity
terms) used to instantiate hypothesised theorems. -/
def sampleNodes : List Node := [⟨"A"⟩, ⟨"B"⟩]

/-- Pods of the sample capture: p1 and p3 on node A, p2 on node B with
affinity terms. -/
def samplePods : List Pod :=
  [⟨"p1", "A", [("app", "x")], false⟩,
   ⟨"p2", "B", [("app", "y")], true⟩,
   ⟨"p3", "A", [("app", "x")], false⟩]

/-- The snapshot built from the sample capture. -/
def sampleSnapshot : Snapshot := NewSnapshot samplePods sampleNodes

/-! ### Helper lemmas about the fold loops -/

theorem foldl_filter_append {α : Type} (p : α → Bool) (l : List α)
    (acc : List α) :
    l.foldl (fun a x => if p x then a ++ [x] else a) acc = acc ++ l.filter p := by
  induction l generalizing acc with
  | nil => simp
  | cons x xs ih =>
    by_cases h : p x <;> simp [List.filter_cons, h, ih]

theorem foldl_append_flatten {α β : Type} (g : β → List α) (l : List β)
    (acc : List α) :
    l.foldl (fun a kv => a ++ g kv) acc = acc ++ (l.map g).flatten := by
  induction l generalizing acc with
  | nil => simp
  | cons x xs ih => simp [ih]

theorem foldl_nested_filter {α β : Type} (p : α → Bool) (g : β → List α)
    (l : List β) (acc : List α) :
    l.foldl
      (fun a kv => (g kv).foldl (fun a2 x => if p x then a2 ++ [x] else a2) a)
      acc
      = acc ++ (l.map (fun kv => (g kv).filter p)).flatten := by
  have hfun : (fun (a : List α) (kv : β) =>
        (g kv).foldl (fun a2 x => if p x then a2 ++ [x] else a2) a)
      = fun a kv => a ++ (g kv).filter p := by
    funext a kv
    exact foldl_filter_append p (g kv) a
  rw [hfun]
  exact foldl_append_flatten (fun kv => (g kv).filter p) l acc

theorem foldl_step_filterMap (l : List NodeInfo) (acc : List Node) :
    l.foldl listNodesStep acc = acc ++ l.filterMap NodeInfo.node := by
  induction l generalizing acc with
  | nil => simp
  | cons x xs ih =>
    cases h : x.node <;> simp [listNodesStep, List.filterMap_cons, h, ih]

theorem flatten_map_filter {α : Type} (p : α → Bool) (L : List (List α)) :
    (L.map (fun l => l.filter p)).flatten = L.flatten.filter p := by
  induction L with
  | nil => rfl
  | cons l ls ih =>
    simp only [List.map_cons, List.flatten_cons, List.filter_append, ih]

theorem buildLists_foldl (entries : List (String × NodeInfo))
    (acc : List NodeInfo × List NodeInfo) :
    entries.foldl
      (fun acc kv =>
        let v := kv.2
        (acc.1 ++ [v],
         if 0 < v.podsWithAffinity.length then acc.2 ++ [v] else acc.2))
      acc
      = (acc.1 ++ entries.map Prod.snd,
         acc.2 ++ (entries.map Prod.snd).filter
           (fun v => decide (0 < v.podsWithAffinity.length))) := by
  induction entries generalizing acc with
  | nil => simp
  | cons kv rest ih =>
    rw [List.foldl_cons, ih]
    by_cases h : 0 < kv.2.podsWithAffinity.length <;>
      simp [List.filter_cons, h]

theorem buildLists_eq (entries : List (String × NodeInfo)) :
    buildLists entries
      = (entries.map Prod.snd,
         (entries.map Prod.snd).filter
           (fun v => decide (0 < v.podsWithAffinity.length))) := by
  have h := buildLists_foldl entries ([], [])
  simpa [buildLists] using h

theorem filteredList_fst (s : Snapshot) (f : Pod → Bool)
    (sel : List (String × String) → Bool) :
    (podLister.FilteredList s f sel).1
      = (s.nodeInfoMap.map
          (fun kv => kv.2.pods.filter (fun p => f p && sel p.labels))).flatten := by
  have h := foldl_nested_filter (fun p => f p && sel p.labels)
    (fun kv : String × NodeInfo => kv.2.pods) s.nodeInfoMap []
  simpa [podLister.FilteredList] using h

theorem listNodes_eq (s : Snapshot) :
    s.ListNodes = s.nodeInfoList.filterMap NodeInfo.node := by
  have h := foldl_step_filterMap s.nodeInfoList []
  simpa [Snapshot.ListNodes] using h

theorem filteredListMaxSize_eq (s : Snapshot) :
    filteredListMaxSize s
      = (s.nodeInfoMap.map (fun kv => kv.2.pods.length)).sum := by
  have aux : ∀ (l : List (String × NodeInfo)) (n : Nat),
      l.foldl (fun maxSize kv => maxSize + kv.2.pods.length) n
        = n + (l.map (fun kv => kv.2.pods.length)).sum := by
    intro l
    induction l with
    | nil => simp
    | cons kv rest ih =>
      intro n
      simp [ih, Nat.add_assoc]
  simpa [filteredListMaxSize] using aux s.nodeInfoMap 0

/-! ### Claim theorems -/

/-- C1: for every snapshot built by `NewSnapshot`, the keys of the
`NodeInfoMap` coincide (pointwise, hence as sets) with the identities of
the aggregates in `NodeInfoList`, and the identities in `NodeInfoList`
have no duplicates. -/
theorem newSnapshot_byName_ordered_bijection (pods : List Pod)
    (nodes : List Node) :
    (NewSnapshot pods nodes).nodeInfoMap.map Prod.fst
        = (NewSnapshot pods nodes).nodeInfoList.map NodeInfo.name
    ∧ ((NewSnapshot pods nodes).nodeInfoList.map NodeInfo.name).Nodup := by
  have hlist : (NewSnapshot pods nodes).nodeInfoList
      = (CreateNodeNameToInfoMap pods nodes).map Prod.snd := by
    simp [NewSnapshot, buildLists_eq]
  have hmap : (NewSnapshot pods nodes).nodeInfoMap
      = CreateNodeNameToInfoMap pods nodes := rfl
  have hnames : ((CreateNodeNameToInfoMap pods nodes).map Prod.snd).map
      NodeInfo.name = referencedNames pods nodes := by
    rw [CreateNodeNameToInfoMap, List.map_map, List.map_map]
    have hfun : ((NodeInfo.name ∘ Prod.snd) ∘
        fun nm => (nm, aggregateFor pods nodes nm)) = id := by
      funext nm
      rfl
    rw [hfun, List.map_id]
  constructor
  · rw [hmap, hlist, hnames, CreateNodeNameToInfoMap, List.map_map]
    have hfun : (Prod.fst ∘ fun nm => (nm, aggregateFor pods nodes nm)) = id := by
      funext nm
      rfl
    rw [hfun, List.map_id]
  · rw [hlist, hnames]
    exact List.nodup_dedup _

/-- C2: for every snapshot built by `NewSnapshot`, the affinity sub-list
equals the ordered list filtered to the aggregates having at least one pod
with affinity terms, in the same relative order. -/
theorem newSnapshot_affinity_subsequence (pods : List Pod)
    (nodes : List Node) :
    (NewSnapshot pods nodes).havePodsWithAffinityNodeInfoList
      = (NewSnapshot pods nodes).nodeInfoList.filter
          (fun v => decide (0 < v.podsWithAffinity.length)) := by
  simp [NewSnapshot, buildLists_eq]

/-- C3: `FilteredList` returns exactly the multiset of pods, across all
node aggregates, satisfying both the pod filter and the selector, and its
length never exceeds the pre-sized capacity (the sum of pod counts). -/
theorem filteredList_exact_and_bounded (s : Snapshot) (f : Pod → Bool)
    (sel : List (String × String) → Bool) :
    ((podLister.FilteredList s f sel).1 : Multiset Pod)
        = ((allSnapshotPods s).filter (fun p => f p && sel p.labels) : Multiset Pod)
    ∧ (podLister.FilteredList s f sel).1.length ≤ filteredListMaxSize s := by
  have hl : (podLister.FilteredList s f sel).1
      = (allSnapshotPods s).filter (fun p => f p && sel p.labels) := by
    rw [filteredList_fst]
    unfold allSnapshotPods
    rw [← flatten_map_filter, List.map_map]
    rfl
  refine ⟨congrArg _ hl, ?_⟩
  rw [hl]
  calc ((allSnapshotPods s).filter (fun p => f p && sel p.labels)).length
      ≤ (allSnapshotPods s).length := List.length_filter_le _ _
    _ = filteredListMaxSize s := by
        rw [allSnapshotPods, filteredListMaxSize_eq, List.length_flatten,
          List.map_map]
        rfl

/-- C4: `podLister.List` returns exactly the result (same pods, same
order, same error) of `podLister.FilteredList` with an always-true pod
filter. -/
theorem list_eq_filteredList_alwaysTrue (s : Snapshot)
    (sel : List (String × String) → Bool) :
    podLister.List s sel = podLister.FilteredList s (fun _ => true) sel := rfl

/-- C5: `Get` on a name present in the map returns the stored aggregate
with a nil error; on an absent name it fails with NotFound carrying the
name; and every other operation of the core always reports a nil error. -/
theorem get_lookup_correct (s : Snapshot) (nm : String) :
    (∀ v, s.nodeInfoMap.lookup nm = some v →
        nodeInfoLister.Get s nm = Except.ok v)
    ∧ (s.nodeInfoMap.lookup nm = none →
        nodeInfoLister.Get s nm = Except.error (SchedErr.notFound nm))
    ∧ (∀ (f : Pod → Bool) (sel : List (String × String) → Bool),
        (podLister.FilteredList s f sel).2 = none)
    ∧ (∀ sel : List (String × String) → Bool,
        (podLister.List s sel).2 = none)
    ∧ (nodeInfoLister.List s).2 = none
    ∧ (nodeInfoLister.HavePodsWithAffinityList s).2 = none := by
  refine ⟨?_, ?_, fun f sel => rfl, fun sel => rfl, rfl, rfl⟩
  · intro v hv
    simp [nodeInfoLister.Get, hv]
  · intro hv
    simp [nodeInfoLister.Get, hv]

/-- Witness for C5 on the sample snapshot: node "A" is found and carries
the aggregate built for it at construction; node "C" is reported
NotFound. -/
theorem get_lookup_correct_witness :
    nodeInfoLister.Get sampleSnapshot "A"
        = Except.ok (aggregateFor samplePods sampleNodes "A")
    ∧ nodeInfoLister.Get sampleSnapshot "C"
        = Except.error (SchedErr.notFound "C") :=
  ⟨(get_lookup_correct sampleSnapshot "A").1
      (aggregateFor samplePods sampleNodes "A") (by decide),
   (get_lookup_correct sampleSnapshot "C").2.1 (by decide)⟩

/-- C6: `ListNodes` returns exactly the non-nil underlying node
descriptors of the aggregates of `NodeInfoList`, in the same relative
order, and its length never exceeds that of `NodeInfoList`. -/
theorem listNodes_live_nodes (s : Snapshot) :
    s.ListNodes = s.nodeInfoList.filterMap NodeInfo.node
    ∧ s.ListNodes.length ≤ s.nodeInfoList.length := by
  refine ⟨listNodes_eq s, ?_⟩
  rw [listNodes_eq s]
  exact List.length_filterMap_le _ _

/-- C7: the generation stamp is fixed at construction (no core operation
produces a snapshot, so none can change it) and every snapshot of a chain
of successive captures carries a strictly greater generation than the one
it replaces. -/
theorem generation_stamped_strictly_increasing (s0 : Snapshot)
    (captures : List (List Pod × List Node)) :
    List.Chain (fun a b => a.generation < b.generation) s0
        (snapshotChain s0 captures)
    ∧ ∀ (prev : Snapshot) (pods : List Pod) (nodes : List Node),
        (nextSnapshot prev pods nodes).generation = prev.generation + 1
        ∧ (nextSnapshot prev pods nodes).nodeInfoMap
            = (NewSnapshot pods nodes).nodeInfoMap
        ∧ (nextSnapshot prev pods nodes).nodeInfoList
            = (NewSnapshot pods nodes).nodeInfoList
        ∧ (nextSnapshot prev pods nodes).havePodsWithAffinityNodeInfoList
            = (NewSnapshot pods nodes).havePodsWithAffinityNodeInfoList := by
  constructor
  · induction captures generalizing s0 with
    | nil => exact List.Chain.nil
    | cons c cs ih =>
      exact List.Chain.cons
        (by simp [nextSnapshot])
        (ih (nextSnapshot s0 c.1 c.2))
  · intro prev pods nodes
    exact ⟨rfl, rfl, rfl, rfl⟩

/-- C8: every listing and filtering operation is total — its error channel
is nil on every snapshot — and on the empty snapshot each returns the
empty list. -/
theorem listing_operations_total (s : Snapshot) (f : Pod → Bool)
    (sel : List (String × String) → Bool) :
    (podLister.FilteredList s f sel).2 = none
    ∧ (podLister.List s sel).2 = none
    ∧ (nodeInfoLister.List s).2 = none
    ∧ (nodeInfoLister.HavePodsWithAffinityList s).2 = none
    ∧ (podLister.FilteredList NewEmptySnapshot f sel).1 = []
    ∧ (podLister.List NewEmptySnapshot sel).1 = []
    ∧ (nodeInfoLister.List NewEmptySnapshot).1 = []
    ∧ (nodeInfoLister.HavePodsWithAffinityList NewEmptySnapshot).1 = [] :=
  ⟨rfl, rfl, rfl, rfl, rfl, rfl, rfl, rfl⟩

/-- C9: `NewEmptySnapshot` has an empty map, empty ordered list, empty
affinity sub-list, and generation zero. -/
theorem newEmptySnapshot_empty :
    NewEmptySnapshot.nodeInfoMap = []
    ∧ NewEmptySnapshot.nodeInfoList = []
    ∧ NewEmptySnapshot.havePodsWithAffinityNodeInfoList = []
    ∧ NewEmptySnapshot.generation = 0 :=
  ⟨rfl, rfl, rfl, rfl⟩

/-- C10: the result of `FilteredList` is the concatenation, node aggregate
by node aggregate in map enumeration order, of each aggregate's accepted
pods — so one aggregate's accepted pods form a contiguous block — and each
aggregate's accepted pods are a sublist (order-preserving selection) of
its pod list. -/
theorem filteredList_per_node_order (s : Snapshot) (f : Pod → Bool)
    (sel : List (String × String) → Bool) :
    (podLister.FilteredList s f sel).1
        = (s.nodeInfoMap.map
            (fun kv => kv.2.pods.filter (fun p => f p && sel p.labels))).flatten
    ∧ ∀ v : NodeInfo,
        (v.pods.filter (fun p => f p && sel p.labels)).Sublist v.pods :=
  ⟨filteredList_fst s f sel, fun _ => List.filter_sublist _⟩

end SchedSnapshot
